import Mathlib

/-!
Shallow embedding of the `pc` postfix calculator (src/src/main.rs).

Modelling conventions:
* Rust `f64` scalars are modelled as exact rationals `ℚ`; the field
  operations `+ - * /` are the rational ones, and the transcendental
  functions and `powf` (which have no rational counterpart) are abstracted
  into a parameter structure `FOps`, so every theorem quantifies over the
  interpretation of those functions.
* The Rust `Vec<Value>` stack is a `List Value` whose head is the stack
  top (`push` = cons, `pop` = head).
* Every Rust `panic!`/`unwrap` failure is modelled in `Except Err`; an
  error aborts the remaining evaluation, as a panic aborts the process.
* `tok.parse::<f64>()` is modelled by `parseNum`, implementing the decimal
  grammar `sign? (digits ['.' digits*] | digits* '.' digits) (e|E sign? digits)?`
  over `ℚ` (the `inf`/`nan` spellings, which have no rational value, are
  outside the model; no claim exercises them).
* Rust `char::is_whitespace` is modelled by `Char.isWhitespace` (ASCII
  whitespace; all claims only use the space character).
* `usize` arithmetic in `exec_matrix` is modelled faithfully: the `f64 as
  usize` cast truncates toward zero saturating at `0` and `usize::MAX`, the
  product `row*col` wraps modulo `2^64` as in a release build (a debug build
  panics at the overflowing multiply itself, so statements about overflowing
  products are release-build behavior; for products below `2^64` the two
  builds agree), and `Vec::<f64>::with_capacity(row*col)` panics with
  "capacity overflow" when the byte size `8*(row*col)` exceeds `isize::MAX`,
  i.e. when the (wrapped) product is at least `2^60` — modelled as the
  distinct error `Err.capacityOverflow`.  Heap exhaustion on legal capacity
  requests is outside the model.
-/

set_option linter.unusedVariables false

namespace PC

/-- `struct Matrix { row: usize, col: usize, data: Box<[f64]> }`. -/
structure Matrix where
  row : Nat
  col : Nat
  data : List ℚ
deriving DecidableEq, Repr

/-- `impl Add for Matrix`: keeps `self.row`/`self.col` and zips the two data
buffers with `+` (the zip is driven by the shorter buffer, as in the source). -/
def Matrix.add (a b : Matrix) : Matrix :=
  ⟨a.row, a.col, List.zipWith (fun x y => x + y) a.data b.data⟩

/-- `impl Sub for Matrix`: keeps `self.row`/`self.col` and zips the two data
buffers with `-`. -/
def Matrix.sub (a b : Matrix) : Matrix :=
  ⟨a.row, a.col, List.zipWith (fun x y => x - y) a.data b.data⟩

/-- `enum Value { Number(f64), Matrix(Matrix) }`. -/
inductive Value where
  | Number (num : ℚ)
  | Matrix (mat : Matrix)
deriving DecidableEq, Repr

/-- `Value::is_number`. -/
def Value.is_number : Value → Bool
  | .Number _ => true
  | _ => false

/-- `Value::is_matrix`. -/
def Value.is_matrix : Value → Bool
  | .Matrix _ => true
  | _ => false

/-- `Value::to_number`. -/
def Value.to_number : Value → Option ℚ
  | .Number num => some num
  | _ => none

/-- `Value::to_matrix`. -/
def Value.to_matrix : Value → Option PC.Matrix
  | .Matrix mat => some mat
  | _ => none

/-- The distinct `panic!` exits of the program. -/
inductive Err where
  | stackUnderflow
  | matrixSizeNotNumber
  | matrixElemNotNumber
  | unsupportedBin (lhs rhs : Value)
  | unsupportedUn (v : Value)
  | undefinedOperator (ident : String)
  | capacityOverflow
deriving DecidableEq, Repr

/-- The abstracted `f64` transcendental functions and constants used by the
handlers; every theorem is uniform in this interpretation. -/
structure FOps where
  pi : ℚ
  powf : ℚ → ℚ → ℚ
  sin : ℚ → ℚ
  cos : ℚ → ℚ
  tan : ℚ → ℚ
  exp : ℚ → ℚ
  exp2 : ℚ → ℚ
  asin : ℚ → ℚ
  acos : ℚ → ℚ
  atan : ℚ → ℚ
  atan2 : ℚ → ℚ → ℚ

/-- A concrete placeholder interpretation of `FOps`, used only to evaluate
closed runs that never reach a transcendental handler. -/
def someOps : FOps :=
  ⟨0, fun _ _ => 0, fun _ => 0, fun _ => 0, fun _ => 0, fun _ => 0,
   fun _ => 0, fun _ => 0, fun _ => 0, fun _ => 0, fun _ _ => 0⟩

/-- Rust `f64 as usize`: truncate toward zero, saturating at `0` below and at
`usize::MAX = 2^64 - 1` above.  For `q ≥ 0` truncation toward zero is the
floor; for `q < 0` the saturation gives 0, and `Int.toNat` of the (negative)
floor is also 0. -/
def ratToUsize (q : ℚ) : Nat :=
  min q.floor.toNat (2 ^ 64 - 1)

/-- One iteration of the pop loop in `exec_matrix`:
`stack.pop().unwrap().to_number().expect("Matrix elements must be numbers")`
(the pop, hence the underflow check, happens before the type check). -/
def popNumber : List Value → Except Err (ℚ × List Value)
  | [] => .error .stackUnderflow
  | .Number q :: rest => .ok (q, rest)
  | .Matrix _ :: _ => .error .matrixElemNotNumber

/-- The `for _ in 0..(row*col)` pop loop of `exec_matrix`; returns the popped
numbers in pop order together with the remaining stack. -/
def popNumbers : Nat → List Value → Except Err (List ℚ × List Value)
  | 0, s => .ok ([], s)
  | n + 1, s =>
    match popNumber s with
    | .ok (q, s1) =>
      match popNumbers n s1 with
      | .ok (qs, s2) => .ok (q :: qs, s2)
      | .error e => .error e
    | .error e => .error e

/-- `exec_pi`: pushes π. -/
def exec_pi (ops : FOps) (s : List Value) : Except Err (List Value) :=
  .ok (.Number ops.pi :: s)

/-- `exec_matrix`: pops `col` then `row` (both must be Numbers — with only two
`Value` variants, "neither is a Matrix" is exactly "both are Numbers"), then
calls `Vec::with_capacity(row*col)` — the `usize` product wraps modulo `2^64`
(release build) and a capacity request of `2^60` or more `f64` elements
(over `isize::MAX` bytes) panics with "capacity overflow" before any element
is popped — then pops `row*col` (the wrapped product) Number elements,
reverses them back into push order and pushes the resulting `row × col`
matrix. -/
def exec_matrix (ops : FOps) (s : List Value) : Except Err (List Value) :=
  match s with
  | colv :: rowv :: rest =>
    match colv, rowv with
    | .Number colq, .Number rowq =>
      if 2 ^ 60 ≤ ratToUsize rowq * ratToUsize colq % 2 ^ 64 then
        .error .capacityOverflow
      else
        match popNumbers (ratToUsize rowq * ratToUsize colq % 2 ^ 64) rest with
        | .ok (mat, rest1) =>
          .ok (.Matrix ⟨ratToUsize rowq, ratToUsize colq, mat.reverse⟩ :: rest1)
        | .error e => .error e
    | _, _ => .error .matrixSizeNotNumber
  | _ => .error .stackUnderflow

/-- `exec_plus`: pops `val2` then `val1`; Number+Number or Matrix+Matrix,
anything else panics with "Unsupported operations". -/
def exec_plus (ops : FOps) (s : List Value) : Except Err (List Value) :=
  match s with
  | v2 :: v1 :: rest =>
    match v1, v2 with
    | .Number lhs, .Number rhs => .ok (.Number (lhs + rhs) :: rest)
    | .Matrix lhs, .Matrix rhs => .ok (.Matrix (lhs.add rhs) :: rest)
    | lhs, rhs => .error (.unsupportedBin lhs rhs)
  | _ => .error .stackUnderflow

/-- `exec_sub`. -/
def exec_sub (ops : FOps) (s : List Value) : Except Err (List Value) :=
  match s with
  | v2 :: v1 :: rest =>
    match v1, v2 with
    | .Number lhs, .Number rhs => .ok (.Number (lhs - rhs) :: rest)
    | .Matrix lhs, .Matrix rhs => .ok (.Matrix (lhs.sub rhs) :: rest)
    | lhs, rhs => .error (.unsupportedBin lhs rhs)
  | _ => .error .stackUnderflow

/-- `exec_mul`: Number*Number only. -/
def exec_mul (ops : FOps) (s : List Value) : Except Err (List Value) :=
  match s with
  | v2 :: v1 :: rest =>
    match v1, v2 with
    | .Number lhs, .Number rhs => .ok (.Number (lhs * rhs) :: rest)
    | lhs, rhs => .error (.unsupportedBin lhs rhs)
  | _ => .error .stackUnderflow

/-- `exec_div`: Number/Number only. -/
def exec_div (ops : FOps) (s : List Value) : Except Err (List Value) :=
  match s with
  | v2 :: v1 :: rest =>
    match v1, v2 with
    | .Number lhs, .Number rhs => .ok (.Number (lhs / rhs) :: rest)
    | lhs, rhs => .error (.unsupportedBin lhs rhs)
  | _ => .error .stackUnderflow

/-- `exec_pow`: `lhs.powf(rhs)` on Numbers only. -/
def exec_pow (ops : FOps) (s : List Value) : Except Err (List Value) :=
  match s with
  | v2 :: v1 :: rest =>
    match v1, v2 with
    | .Number lhs, .Number rhs => .ok (.Number (ops.powf lhs rhs) :: rest)
    | lhs, rhs => .error (.unsupportedBin lhs rhs)
  | _ => .error .stackUnderflow

/-- `exec_sin`: unary, Number only. -/
def exec_sin (ops : FOps) (s : List Value) : Except Err (List Value) :=
  match s with
  | .Number v :: rest => .ok (.Number (ops.sin v) :: rest)
  | .Matrix m :: _ => .error (.unsupportedUn (.Matrix m))
  | [] => .error .stackUnderflow

/-- `exec_cos`. -/
def exec_cos (ops : FOps) (s : List Value) : Except Err (List Value) :=
  match s with
  | .Number v :: rest => .ok (.Number (ops.cos v) :: rest)
  | .Matrix m :: _ => .error (.unsupportedUn (.Matrix m))
  | [] => .error .stackUnderflow

/-- `exec_tan`. -/
def exec_tan (ops : FOps) (s : List Value) : Except Err (List Value) :=
  match s with
  | .Number v :: rest => .ok (.Number (ops.tan v) :: rest)
  | .Matrix m :: _ => .error (.unsupportedUn (.Matrix m))
  | [] => .error .stackUnderflow

/-- `exec_cot`: `1.0 / value.tan()`. -/
def exec_cot (ops : FOps) (s : List Value) : Except Err (List Value) :=
  match s with
  | .Number v :: rest => .ok (.Number (1 / ops.tan v) :: rest)
  | .Matrix m :: _ => .error (.unsupportedUn (.Matrix m))
  | [] => .error .stackUnderflow

/-- `exec_exp`. -/
def exec_exp (ops : FOps) (s : List Value) : Except Err (List Value) :=
  match s with
  | .Number v :: rest => .ok (.Number (ops.exp v) :: rest)
  | .Matrix m :: _ => .error (.unsupportedUn (.Matrix m))
  | [] => .error .stackUnderflow

/-- `exec_exp2`: defined in the source but never registered in `HANDLERS`. -/
def exec_exp2 (ops : FOps) (s : List Value) : Except Err (List Value) :=
  match s with
  | .Number v :: rest => .ok (.Number (ops.exp2 v) :: rest)
  | .Matrix m :: _ => .error (.unsupportedUn (.Matrix m))
  | [] => .error .stackUnderflow

/-- `exec_asin`. -/
def exec_asin (ops : FOps) (s : List Value) : Except Err (List Value) :=
  match s with
  | .Number v :: rest => .ok (.Number (ops.asin v) :: rest)
  | .Matrix m :: _ => .error (.unsupportedUn (.Matrix m))
  | [] => .error .stackUnderflow

/-- `exec_acos`. -/
def exec_acos (ops : FOps) (s : List Value) : Except Err (List Value) :=
  match s with
  | .Number v :: rest => .ok (.Number (ops.acos v) :: rest)
  | .Matrix m :: _ => .error (.unsupportedUn (.Matrix m))
  | [] => .error .stackUnderflow

/-- `exec_atan`. -/
def exec_atan (ops : FOps) (s : List Value) : Except Err (List Value) :=
  match s with
  | .Number v :: rest => .ok (.Number (ops.atan v) :: rest)
  | .Matrix m :: _ => .error (.unsupportedUn (.Matrix m))
  | [] => .error .stackUnderflow

/-- `exec_acot`: `(1.0 / value).atan()`. -/
def exec_acot (ops : FOps) (s : List Value) : Except Err (List Value) :=
  match s with
  | .Number v :: rest => .ok (.Number (ops.atan (1 / v)) :: rest)
  | .Matrix m :: _ => .error (.unsupportedUn (.Matrix m))
  | [] => .error .stackUnderflow

/-- `exec_atan2`: binary, Numbers only. -/
def exec_atan2 (ops : FOps) (s : List Value) : Except Err (List Value) :=
  match s with
  | v2 :: v1 :: rest =>
    match v1, v2 with
    | .Number lhs, .Number rhs => .ok (.Number (ops.atan2 lhs rhs) :: rest)
    | lhs, rhs => .error (.unsupportedBin lhs rhs)
  | _ => .error .stackUnderflow

/-- Two's-complement bitwise NOT on `isize`, as in `!(i as isize)`:
on the `negSucc`/`ofNat` encoding, NOT of a non-negative `n` is the
negative number with magnitude `n+1` and conversely. -/
def isizeNot : Int → Int
  | .ofNat n => .negSucc n
  | .negSucc n => .ofNat n

/-- The stdout of `exec_print`: one `(index, value)` line per stack element,
iterating `stack.iter().rev()` (top first), index `!(i as isize)`. -/
def printOutput (s : List Value) : List (Int × Value) :=
  s.enum.map (fun p => (isizeNot (p.1 : Int), p.2))

/-- `exec_print`: only reads the stack (immutable iteration), never changes it;
its console output is modelled separately by `printOutput`. -/
def exec_print (ops : FOps) (s : List Value) : Except Err (List Value) :=
  .ok s

/-- The `phf_map!` registry `HANDLERS`, in source order. -/
def HANDLERS : List (String × (FOps → List Value → Except Err (List Value))) :=
  [("pi", exec_pi),
   ("+", exec_plus),
   ("-", exec_sub),
   ("*", exec_mul),
   ("/", exec_div),
   ("^", exec_pow),
   ("sin", exec_sin),
   ("cos", exec_cos),
   ("tan", exec_tan),
   ("cot", exec_cot),
   ("exp", exec_exp),
   ("asin", exec_asin),
   ("acos", exec_acos),
   ("atan", exec_atan),
   ("acot", exec_acot),
   ("atan2", exec_atan2),
   ("p", exec_print),
   ("matrix", exec_matrix)]

/-- `exec_identifier`: registry lookup; unknown identifiers panic with
`Undefined operator: {identifier}`. -/
def exec_identifier (ops : FOps) (s : List Value) (ident : String) :
    Except Err (List Value) :=
  match HANDLERS.lookup ident with
  | some f => f ops s
  | none => .error (.undefinedOperator ident)

/-- Digit run to its value, `fold (fun a c => a*10 + digit c) 0`. -/
def digitsToNat (l : List Char) : Nat :=
  l.foldl (fun a c => a * 10 + (c.toNat - 48)) 0

/-- Optional leading sign of a float literal; returns the sign as a rational
factor and the remaining characters. -/
def parseSign : List Char → ℚ × List Char
  | '+' :: r => (1, r)
  | '-' :: r => (-1, r)
  | l => (1, l)

/-- Optional exponent suffix after the mantissa `m`: empty input accepts `m`;
`e`/`E`, an optional sign and a nonempty digit run consuming the whole rest
scales `m` by the corresponding power of ten; anything else rejects. -/
def parseAfterMant (m : ℚ) (l : List Char) : Option ℚ :=
  match l with
  | [] => some m
  | c :: r =>
    if c == 'e' || c == 'E' then
      let sr :=
        match r with
        | '+' :: rr => (false, rr)
        | '-' :: rr => (true, rr)
        | _ => (false, r)
      let ds := sr.2.takeWhile Char.isDigit
      let rest := sr.2.dropWhile Char.isDigit
      if ds.isEmpty || !rest.isEmpty then none
      else if sr.1 then some (m / (10 : ℚ) ^ digitsToNat ds)
      else some (m * (10 : ℚ) ^ digitsToNat ds)
    else none

/-- `tok.parse::<f64>()`, as an exact rational: `sign? digits* ['.' digits*]
[e|E sign? digits]` with at least one mantissa digit, consuming the whole
token.  (The `inf`/`nan` spellings of the Rust grammar lie outside `ℚ` and
are not modelled; no registered operator name matches them.) -/
def parseNum (s : String) : Option ℚ :=
  let sl := parseSign s.toList
  let ip := sl.2.takeWhile Char.isDigit
  let l1 := sl.2.dropWhile Char.isDigit
  match l1 with
  | '.' :: r =>
    let fp := r.takeWhile Char.isDigit
    let l2 := r.dropWhile Char.isDigit
    if ip.isEmpty && fp.isEmpty then none
    else
      parseAfterMant
        (sl.1 * ((digitsToNat ip : ℚ) + (digitsToNat fp : ℚ) / (10 : ℚ) ^ fp.length))
        l2
  | _ =>
    if ip.isEmpty then none
    else parseAfterMant (sl.1 * (digitsToNat ip : ℚ)) l1

/-- One token of the `exec` loop: parse as a float and push, or dispatch as an
identifier. -/
def execTok (ops : FOps) (s : List Value) (tok : String) : Except Err (List Value) :=
  match parseNum tok with
  | some q => .ok (.Number q :: s)
  | none => exec_identifier ops s tok

/-- The token loop of `exec`: strictly left to right, a panic (error) aborts
the rest. -/
def execToks (ops : FOps) (s : List Value) : List String → Except Err (List Value)
  | [] => .ok s
  | t :: ts =>
    match execTok ops s t with
    | .ok s1 => execToks ops s1 ts
    | .error e => .error e

/-- `split_whitespace`, accumulator style: `cur` holds the current in-progress
token reversed; whitespace flushes it, end of input flushes the last token. -/
def tokensAux : List Char → List Char → List (List Char)
  | [], cur => if cur.isEmpty then [] else [cur.reverse]
  | c :: rest, cur =>
    if c.isWhitespace then
      if cur.isEmpty then tokensAux rest []
      else cur.reverse :: tokensAux rest []
    else tokensAux rest (c :: cur)

/-- `expr.split_whitespace()` as a list of tokens. -/
def tokenize (line : String) : List String :=
  (tokensAux line.toList []).map (fun cs => String.mk cs)

/-- `exec`: tokenize the line and run the token loop on the given stack. -/
def exec (ops : FOps) (s : List Value) (expr : String) : Except Err (List Value) :=
  execToks ops s (tokenize expr)

theorem execToks_append (ops : FOps) (l1 l2 : List String) :
    ∀ s : List Value,
      execToks ops s (l1 ++ l2) =
        (execToks ops s l1).bind (fun s2 => execToks ops s2 l2) := by
  induction l1 with
  | nil => intro s; rfl
  | cons t ts ih =>
    intro s
    simp only [List.cons_append, execToks]
    cases h : execTok ops s t with
    | ok s1 => simp [h, ih s1, Except.bind]
    | error e => simp [h, Except.bind]

theorem tokensAux_append (c : Char) (hc : c.isWhitespace = true) (B A : List Char) :
    ∀ cur : List Char,
      tokensAux (A ++ c :: B) cur = tokensAux A cur ++ tokensAux B [] := by
  induction A with
  | nil => intro cur; cases cur <;> simp [tokensAux, hc]
  | cons a A ih =>
    intro cur
    by_cases h : a.isWhitespace = true
    · cases cur <;> simp [tokensAux, h, ih]
    · simp [tokensAux, h, ih]

theorem tokenize_append_space (A B : String) :
    tokenize (A ++ " " ++ B) = tokenize A ++ tokenize B := by
  unfold tokenize
  have h : (A ++ " " ++ B).toList = A.toList ++ ' ' :: B.toList := by
    show (A.data ++ " ".data) ++ B.data = A.data ++ ' ' :: B.data
    simp
  rw [h, tokensAux_append ' ' (by decide) B.toList A.toList [], List.map_append]

theorem isizeNot_eq (i : Int) : isizeNot i = -(i + 1) := by
  cases i with
  | ofNat n => simp only [isizeNot, Int.negSucc_eq, Int.ofNat_eq_coe]
  | negSucc n => simp only [isizeNot, Int.negSucc_eq, Int.ofNat_eq_coe]; omega

theorem popNumbers_length :
    ∀ (n : Nat) (s : List Value) (qs : List ℚ) (s1 : List Value),
      popNumbers n s = .ok (qs, s1) → qs.length = n := by
  intro n
  induction n with
  | zero =>
    intro s qs s1 h
    simp only [popNumbers] at h
    cases h
    rfl
  | succ m ih =>
    intro s qs s1 h
    simp only [popNumbers] at h
    cases hp : popNumber s with
    | error e => rw [hp] at h; cases h
    | ok pr =>
      obtain ⟨q, t⟩ := pr
      rw [hp] at h
      dsimp only at h
      cases hq : popNumbers m t with
      | error e => rw [hq] at h; cases h
      | ok pr2 =>
        obtain ⟨qs2, s2⟩ := pr2
        rw [hq] at h
        cases h
        simpa using ih t qs2 _ hq

theorem popNumbers_underflow :
    ∀ (s : List Value) (n : Nat), (∀ v ∈ s, v.is_number = true) → s.length < n →
      popNumbers n s = .error .stackUnderflow := by
  intro s
  induction s with
  | nil =>
    intro n hall hlen
    cases n with
    | zero => omega
    | succ m => rfl
  | cons v t ih =>
    intro n hall hlen
    cases n with
    | zero => omega
    | succ m =>
      cases v with
      | Matrix mm => exact absurd (hall (.Matrix mm) (by simp)) (by simp [Value.is_number])
      | Number q =>
        simp only [popNumbers, popNumber]
        rw [ih m (fun w hw => hall w (by simp [hw])) (by simp at hlen; omega)]

/-- C1: `matrix` pops `col` first, then `row`, then `row*col` further numbers,
reverses the popped elements back into push order and pushes one row-major
matrix: on any stack whose top six values (top first) are `2, 2, a, b, c, d`
the result pushes the `2×2` matrix with data `[d, c, b, a]` — rows `[d,c]` and
`[b,a]` — and in particular `1 2 3 4 2 2 matrix` on the empty stack yields
exactly one matrix with rows `[1,2]` and `[3,4]`. -/
theorem claim1_matrix_construction :
    (∀ (ops : FOps) (a b c d : ℚ) (rest : List Value),
      exec_matrix ops
          (.Number 2 :: .Number 2 :: .Number a :: .Number b :: .Number c ::
            .Number d :: rest) =
        .ok (.Matrix ⟨2, 2, [d, c, b, a]⟩ :: rest)) ∧
    (∀ ops : FOps,
      exec ops [] "1 2 3 4 2 2 matrix" = .ok [.Matrix ⟨2, 2, [1, 2, 3, 4]⟩]) := by
  constructor
  · intro ops a b c d rest
    rfl
  · intro ops
    with_unfolding_all rfl

/-- C3 counterexample: `1 2 2 2 matrix 3 *` does not reach `*` at all — the
`matrix` operator needs `2 + 2*2` stack values but only four are present, so
the run aborts with a stack underflow inside `matrix`, not with an
unsupported-operation error from `*`. -/
theorem claim3_type_mismatch_counterexample :
    exec someOps [] "1 2 2 2 matrix 3 *" = .error .stackUnderflow := by
  with_unfolding_all rfl

/-- C3 amended: `1 2 2 2 matrix 3 *` fails with StackUnderflow inside
`matrix`; the intended scenario holds on `1 2 3 4 2 2 matrix 3 *`, which
fails with the UnsupportedOperation error raised by `*` when it receives the
matrix (lhs) and the number 3 (rhs), and in general `*` on a Matrix under a
Number always fails that way. -/
theorem claim3_type_mismatch_amended :
    ∀ ops : FOps,
      exec ops [] "1 2 2 2 matrix 3 *" = .error .stackUnderflow ∧
      exec ops [] "1 2 3 4 2 2 matrix 3 *" =
        .error (.unsupportedBin (.Matrix ⟨2, 2, [1, 2, 3, 4]⟩) (.Number 3)) ∧
      (∀ (m : Matrix) (q : ℚ) (rest : List Value),
        exec_mul ops (.Number q :: .Matrix m :: rest) =
          .error (.unsupportedBin (.Matrix m) (.Number q))) := by
  intro ops
  refine ⟨by with_unfolding_all rfl, by with_unfolding_all rfl, ?_⟩
  intro m q rest
  rfl

/-- C4: on two Numbers `a` (pushed first) and `b` (top), `+` pushes `a+b`,
`-` pushes `a-b`, `*` pushes `a*b`, `/` pushes `a/b` and `^` pushes
`powf a b`, always leaving the rest of the stack unchanged. -/
theorem claim4_number_arithmetic :
    ∀ (ops : FOps) (a b : ℚ) (rest : List Value),
      exec_plus ops (.Number b :: .Number a :: rest) =
        .ok (.Number (a + b) :: rest) ∧
      exec_sub ops (.Number b :: .Number a :: rest) =
        .ok (.Number (a - b) :: rest) ∧
      exec_mul ops (.Number b :: .Number a :: rest) =
        .ok (.Number (a * b) :: rest) ∧
      exec_div ops (.Number b :: .Number a :: rest) =
        .ok (.Number (a / b) :: rest) ∧
      exec_pow ops (.Number b :: .Number a :: rest) =
        .ok (.Number (ops.powf a b) :: rest) := by
  intro ops a b rest
  exact ⟨rfl, rfl, rfl, rfl, rfl⟩

/-- C10: the registry holds exactly the eighteen listed names (here in source
order), `exp2` is not among them, so the token `exp2` dispatches to an
UndefinedOperator error even though the handler `exec_exp2` exists and would
push `exp2` of its Number argument. -/
theorem claim10_registry_names :
    HANDLERS.map Prod.fst =
      ["pi", "+", "-", "*", "/", "^", "sin", "cos", "tan", "cot", "exp",
       "asin", "acos", "atan", "acot", "atan2", "p", "matrix"] ∧
    HANDLERS.lookup "exp2" = none ∧
    (∀ (ops : FOps) (s : List Value),
      execTok ops s "exp2" = .error (.undefinedOperator "exp2")) ∧
    (∀ (ops : FOps) (q : ℚ) (rest : List Value),
      exec_exp2 ops (.Number q :: rest) = .ok (.Number (ops.exp2 q) :: rest)) := by
  exact ⟨rfl, rfl, fun ops s => rfl, fun ops q rest => rfl⟩

/-- C5: on two Matrices of identical dimensions (`lhs` pushed first, `rhs` on
top), `+` and `-` pop both and push a new Matrix of the same dimensions whose
data is the element-wise sum (difference); its length is again `r*c` and its
element at each linear index `i` is `lhs[i] + rhs[i]` (resp. `-`); in
particular `[[1,2],[3,4]] + [[5,6],[7,8]] = [[6,8],[10,12]]`. -/
theorem claim5_matrix_elementwise :
    ∀ (ops : FOps) (r c : Nat) (d1 d2 : List ℚ) (rest : List Value),
      d1.length = r * c → d2.length = r * c →
      exec_plus ops (.Matrix ⟨r, c, d2⟩ :: .Matrix ⟨r, c, d1⟩ :: rest) =
        .ok (.Matrix ⟨r, c, List.zipWith (fun x y => x + y) d1 d2⟩ :: rest) ∧
      exec_sub ops (.Matrix ⟨r, c, d2⟩ :: .Matrix ⟨r, c, d1⟩ :: rest) =
        .ok (.Matrix ⟨r, c, List.zipWith (fun x y => x - y) d1 d2⟩ :: rest) ∧
      (List.zipWith (fun x y => x + y) d1 d2).length = r * c ∧
      (List.zipWith (fun x y => x - y) d1 d2).length = r * c ∧
      (∀ (i : Nat) (h1 : i < d1.length) (h2 : i < d2.length)
        (h : i < (List.zipWith (fun x y => x + y) d1 d2).length),
        (List.zipWith (fun x y => x + y) d1 d2).get ⟨i, h⟩ =
          d1.get ⟨i, h1⟩ + d2.get ⟨i, h2⟩) ∧
      (∀ (i : Nat) (h1 : i < d1.length) (h2 : i < d2.length)
        (h : i < (List.zipWith (fun x y => x - y) d1 d2).length),
        (List.zipWith (fun x y => x - y) d1 d2).get ⟨i, h⟩ =
          d1.get ⟨i, h1⟩ - d2.get ⟨i, h2⟩) ∧
      exec_plus ops [.Matrix ⟨2, 2, [5, 6, 7, 8]⟩, .Matrix ⟨2, 2, [1, 2, 3, 4]⟩] =
        .ok [.Matrix ⟨2, 2, [6, 8, 10, 12]⟩] := by
  intro ops r c d1 d2 rest h1 h2
  refine ⟨rfl, rfl, ?_, ?_, ?_, ?_, ?_⟩
  · simp [List.length_zipWith, h1, h2]
  · simp [List.length_zipWith, h1, h2]
  · intro i hi1 hi2 hi
    simp [List.get_eq_getElem, List.getElem_zipWith]
  · intro i hi1 hi2 hi
    simp [List.get_eq_getElem, List.getElem_zipWith]
  · with_unfolding_all rfl

/-- C5 witness: the general statement instantiated on the two concrete `2×2`
matrices of the claim. -/
theorem claim5_matrix_elementwise_witness :
    exec_plus someOps [.Matrix ⟨2, 2, [5, 6, 7, 8]⟩, .Matrix ⟨2, 2, [1, 2, 3, 4]⟩] =
      .ok [.Matrix ⟨2, 2, List.zipWith (fun x y => x + y) [1, 2, 3, 4] [5, 6, 7, 8]⟩] :=
  (claim5_matrix_elementwise someOps 2 2 [1, 2, 3, 4] [5, 6, 7, 8] [] rfl rfl).1

/-- C6: the evaluator splits a line on whitespace and processes the tokens
strictly left to right — a token that parses as a float is pushed as a
Number, any other token is dispatched as an identifier — and evaluating line
`A` then line `B` on the same stack equals evaluating the single line
`A ++ " " ++ B` (so values pushed on one line are usable on later lines). -/
theorem claim6_token_loop :
    ∀ (ops : FOps) (s : List Value) (A B : String),
      exec ops s (A ++ " " ++ B) = (exec ops s A).bind (fun s2 => exec ops s2 B) ∧
      (∀ (tok : String) (q : ℚ),
        parseNum tok = some q → execTok ops s tok = .ok (.Number q :: s)) ∧
      (∀ tok : String,
        parseNum tok = none → execTok ops s tok = exec_identifier ops s tok) ∧
      (∀ (t : String) (ts : List String),
        execToks ops s (t :: ts) =
          (execTok ops s t).bind (fun s2 => execToks ops s2 ts)) := by
  intro ops s A B
  refine ⟨?_, ?_, ?_, ?_⟩
  · show execToks ops s (tokenize (A ++ " " ++ B)) = _
    rw [tokenize_append_space, execToks_append]
    rfl
  · intro tok q h
    simp [execTok, h]
  · intro tok h
    simp [execTok, h]
  · intro t ts
    show (match execTok ops s t with
      | .ok s1 => execToks ops s1 ts
      | .error e => .error e) = _
    cases h : execTok ops s t <;> simp [h, Except.bind]

/-- C6 witness: the line-concatenation law and both dispatch modes at concrete
inputs — `"1 2"` then `"+"` equals `"1 2 +"`, the numeric token `"1"` is
pushed, and the non-numeric token `"foo"` goes to identifier dispatch. -/
theorem claim6_token_loop_witness :
    exec someOps [] ("1 2" ++ " " ++ "+") =
      (exec someOps [] "1 2").bind (fun s2 => exec someOps s2 "+") ∧
    execTok someOps [] "1" = .ok [.Number (1 * ((digitsToNat ['1'] : Nat) : ℚ))] ∧
    execTok someOps [] "foo" = exec_identifier someOps [] "foo" :=
  ⟨(claim6_token_loop someOps [] "1 2" "+").1,
   (claim6_token_loop someOps [] "1 2" "+").2.1 "1" (1 * ((digitsToNat ['1'] : Nat) : ℚ)) rfl,
   (claim6_token_loop someOps [] "1 2" "+").2.2.1 "foo" rfl⟩

/-- C8: a token that does not parse as a number is looked up in the registry;
an absent identifier fails with an UndefinedOperator error naming exactly that
identifier, and a present one has its registered operation invoked on the
current stack. -/
theorem claim8_dispatch :
    ∀ (ops : FOps) (s : List Value) (tok : String),
      (parseNum tok = none → execTok ops s tok = exec_identifier ops s tok) ∧
      (HANDLERS.lookup tok = none →
        exec_identifier ops s tok = .error (.undefinedOperator tok)) ∧
      (∀ f, HANDLERS.lookup tok = some f → exec_identifier ops s tok = f ops s) := by
  intro ops s tok
  refine ⟨?_, ?_, ?_⟩
  · intro h
    simp [execTok, h]
  · intro h
    simp [exec_identifier, h]
  · intro f h
    simp [exec_identifier, h]

/-- C8 witness: the unregistered identifier `foo` fails with
`UndefinedOperator "foo"`, and the registered identifier `sin` invokes its
handler. -/
theorem claim8_dispatch_witness :
    execTok someOps [] "foo" = exec_identifier someOps [] "foo" ∧
    exec_identifier someOps [] "foo" = .error (.undefinedOperator "foo") ∧
    exec_identifier someOps [] "sin" = exec_sin someOps [] :=
  ⟨(claim8_dispatch someOps [] "foo").1 rfl,
   (claim8_dispatch someOps [] "foo").2.1 rfl,
   (claim8_dispatch someOps [] "sin").2.2 exec_sin rfl⟩

/-- C9: `p` emits one output line per stack element, top first, the i-th line
(0-based from the top) indexed by the bitwise complement of `i` — which
equals `-(i+1)` — and leaves the stack unchanged; on the stack with 1,2,3
pushed in that order (so top first 3,2,1) the indices are -1, -2, -3. -/
theorem claim9_print :
    ∀ (ops : FOps) (s : List Value),
      exec_print ops s = .ok s ∧
      (printOutput s).length = s.length ∧
      printOutput s = s.enum.map (fun p => (-((p.1 : Int) + 1), p.2)) ∧
      printOutput [.Number 3, .Number 2, .Number 1] =
        [(-1, .Number 3), (-2, .Number 2), (-3, .Number 1)] := by
  intro ops s
  refine ⟨rfl, by simp [printOutput], ?_, rfl⟩
  simp [printOutput, isizeNot_eq]

/-- C2 counterexample: the program itself produces a Matrix violating
`data.length = rows*cols` — adding the `2×2` matrix `[[1,2],[3,4]]` and the
`1×2` matrix `[5,6]` built by `matrix` yields a Matrix with `row=2`, `col=2`
but only 2 data elements, because the addition zips by the shorter buffer. -/
theorem claim2_matrix_invariant_counterexample :
    exec someOps [] "1 2 3 4 2 2 matrix 5 6 1 2 matrix +" =
      .ok [.Matrix ⟨2, 2, [6, 8]⟩] ∧
    ¬ ((Matrix.mk 2 2 [6, 8]).data.length =
        (Matrix.mk 2 2 [6, 8]).row * (Matrix.mk 2 2 [6, 8]).col) :=
  ⟨by with_unfolding_all rfl, by decide⟩

/-- C2 amended: a Matrix pushed by the `matrix` operator has data length equal
to the wrapped `usize` product `(rows*cols) % 2^64`, hence satisfies
`data.length = rows*cols` whenever the product does not overflow `usize`; in
a release build an overflowing product wraps, so `4294967296 4294967296
matrix` pushes `Matrix{2^32, 2^32, []}` and already violates the invariant (a
debug build instead panics at the multiply).  Addition/subtraction of two
invariant-satisfying Matrices of identical dimensions preserves the
invariant, but addition of Matrices of different shapes can produce a
violating Matrix (the data is the shorter-driven zip while the shape is
copied from the left operand), as `1 2 3 4 2 2 matrix 5 6 1 2 matrix +`
shows. -/
theorem claim2_matrix_invariant_amended :
    (∀ (ops : FOps) (s s1 : List Value), exec_matrix ops s = .ok s1 →
      ∃ (m : Matrix) (rest : List Value),
        s1 = .Matrix m :: rest ∧
        m.data.length = m.row * m.col % 2 ^ 64 ∧
        (m.row * m.col < 2 ^ 64 → m.data.length = m.row * m.col)) ∧
    (∀ (ops : FOps) (rest : List Value),
      exec_matrix ops (.Number 4294967296 :: .Number 4294967296 :: rest) =
        .ok (.Matrix ⟨4294967296, 4294967296, []⟩ :: rest)) ∧
    ¬ ((Matrix.mk 4294967296 4294967296 []).data.length =
        (Matrix.mk 4294967296 4294967296 []).row *
          (Matrix.mk 4294967296 4294967296 []).col) ∧
    (∀ a b : Matrix, a.row = b.row → a.col = b.col →
      a.data.length = a.row * a.col → b.data.length = b.row * b.col →
      (a.add b).data.length = (a.add b).row * (a.add b).col ∧
      (a.sub b).data.length = (a.sub b).row * (a.sub b).col) ∧
    (∀ ops : FOps,
      exec ops [] "1 2 3 4 2 2 matrix 5 6 1 2 matrix +" =
        .ok [.Matrix ⟨2, 2, [6, 8]⟩]) ∧
    ¬ (([6, 8] : List ℚ).length = 2 * 2) := by
  refine ⟨?_, ?_, by decide, ?_, ?_, by decide⟩
  · intro ops s s1 h
    cases s with
    | nil => cases h
    | cons colv t =>
      cases t with
      | nil => cases h
      | cons rowv rest =>
        cases colv with
        | Matrix m => simp [exec_matrix] at h
        | Number colq =>
          cases rowv with
          | Matrix m => simp [exec_matrix] at h
          | Number rowq =>
            unfold exec_matrix at h
            dsimp only at h
            by_cases hcap : 2 ^ 60 ≤ ratToUsize rowq * ratToUsize colq % 2 ^ 64
            · rw [if_pos hcap] at h; cases h
            · rw [if_neg hcap] at h
              cases hp :
                  popNumbers (ratToUsize rowq * ratToUsize colq % 2 ^ 64) rest with
              | error e => rw [hp] at h; cases h
              | ok pr =>
                obtain ⟨mat, rest1⟩ := pr
                rw [hp] at h
                dsimp only at h
                cases h
                refine ⟨⟨ratToUsize rowq, ratToUsize colq, mat.reverse⟩, rest1, rfl,
                  by simp [popNumbers_length _ _ _ _ hp], ?_⟩
                intro hlt
                dsimp only at hlt ⊢
                rw [List.length_reverse, popNumbers_length _ _ _ _ hp,
                  Nat.mod_eq_of_lt hlt]
  · intro ops rest
    rfl
  · intro a b hr hc ha hb
    constructor
    · simp only [Matrix.add, List.length_zipWith, ha, hb, hr, hc, min_self]
    · simp only [Matrix.sub, List.length_zipWith, ha, hb, hr, hc, min_self]
  · intro ops
    with_unfolding_all rfl

/-- C2 witness: the `matrix`-construction conjunct applied to the concrete
run building the `1×2` matrix `[6,5]` (size product 2, no overflow), and the
preservation conjunct applied to the two `2×2` matrices of the spec
example. -/
theorem claim2_matrix_invariant_witness :
    (∃ (m : Matrix) (rest : List Value),
      ([Value.Matrix ⟨1, 2, [6, 5]⟩] : List Value) = .Matrix m :: rest ∧
        m.data.length = m.row * m.col % 2 ^ 64 ∧
        (m.row * m.col < 2 ^ 64 → m.data.length = m.row * m.col)) ∧
    ((⟨2, 2, [1, 2, 3, 4]⟩ : Matrix).add ⟨2, 2, [5, 6, 7, 8]⟩).data.length =
      ((⟨2, 2, [1, 2, 3, 4]⟩ : Matrix).add ⟨2, 2, [5, 6, 7, 8]⟩).row *
        ((⟨2, 2, [1, 2, 3, 4]⟩ : Matrix).add ⟨2, 2, [5, 6, 7, 8]⟩).col :=
  ⟨claim2_matrix_invariant_amended.1 someOps
      [.Number 2, .Number 1, .Number 5, .Number 6] [.Matrix ⟨1, 2, [6, 5]⟩] rfl,
   (claim2_matrix_invariant_amended.2.2.2.1 ⟨2, 2, [1, 2, 3, 4]⟩ ⟨2, 2, [5, 6, 7, 8]⟩
      rfl rfl rfl rfl).1⟩

/-- C7 counterexample: `matrix` on a stack holding fewer values than it pops
(3 < 2 + 2*2) can fail with the "matrix elements must be numbers" type error
instead of StackUnderflow, when it reaches a Matrix element before exhausting
the stack. -/
theorem claim7_underflow_counterexample :
    ([Value.Number 2, Value.Number 2, Value.Matrix ⟨1, 1, [0]⟩] : List Value).length <
        2 + 2 * 2 ∧
    exec_matrix someOps [.Number 2, .Number 2, .Matrix ⟨1, 1, [0]⟩] =
      .error .matrixElemNotNumber ∧
    Err.matrixElemNotNumber ≠ Err.stackUnderflow :=
  ⟨by decide, rfl, by decide⟩

/-- C7 amended: every operator that pops operands fails on a too-short stack
and never produces a default value: the fixed-arity operators always fail
with StackUnderflow (in particular `+` on the empty stack).  For `matrix` the
error depends on the size: with a size product `row*col` below the Vec
capacity limit of `2^60` elements, it fails with StackUnderflow whenever the
available elements are all Numbers — if it pops a Matrix element first it
fails with a type error instead — while a size product of at least `2^60`
(and below `2^64`, so that it does not wrap) fails with Vec's
"capacity overflow" panic before any element is popped, as
`1 4611686018427387904 matrix` shows; in a release build an overflowing
product wraps modulo `2^64`, so `4294967296 4294967296 matrix` pops nothing
and succeeds instead of underflowing. -/
theorem claim7_underflow_amended :
    ∀ (ops : FOps) (s : List Value),
      (s.length < 2 →
        exec_plus ops s = .error .stackUnderflow ∧
        exec_sub ops s = .error .stackUnderflow ∧
        exec_mul ops s = .error .stackUnderflow ∧
        exec_div ops s = .error .stackUnderflow ∧
        exec_pow ops s = .error .stackUnderflow ∧
        exec_atan2 ops s = .error .stackUnderflow ∧
        exec_matrix ops s = .error .stackUnderflow) ∧
      (s.length < 1 →
        exec_sin ops s = .error .stackUnderflow ∧
        exec_cos ops s = .error .stackUnderflow ∧
        exec_tan ops s = .error .stackUnderflow ∧
        exec_cot ops s = .error .stackUnderflow ∧
        exec_exp ops s = .error .stackUnderflow ∧
        exec_asin ops s = .error .stackUnderflow ∧
        exec_acos ops s = .error .stackUnderflow ∧
        exec_atan ops s = .error .stackUnderflow ∧
        exec_acot ops s = .error .stackUnderflow) ∧
      (∀ (colq rowq : ℚ) (rest : List Value),
        (∀ v ∈ rest, v.is_number = true) →
        ratToUsize rowq * ratToUsize colq < 2 ^ 60 →
        rest.length < ratToUsize rowq * ratToUsize colq →
        exec_matrix ops (.Number colq :: .Number rowq :: rest) =
          .error .stackUnderflow) ∧
      (∀ (colq rowq : ℚ) (rest : List Value),
        2 ^ 60 ≤ ratToUsize rowq * ratToUsize colq →
        ratToUsize rowq * ratToUsize colq < 2 ^ 64 →
        exec_matrix ops (.Number colq :: .Number rowq :: rest) =
          .error .capacityOverflow) ∧
      exec ops [] "1 4611686018427387904 matrix" = .error .capacityOverflow ∧
      exec ops [] "4294967296 4294967296 matrix" =
        .ok [.Matrix ⟨4294967296, 4294967296, []⟩] := by
  intro ops s
  refine ⟨?_, ?_, ?_, ?_, by with_unfolding_all rfl, by with_unfolding_all rfl⟩
  · intro h
    match s, h with
    | [], _ => exact ⟨rfl, rfl, rfl, rfl, rfl, rfl, rfl⟩
    | [v], _ => exact ⟨rfl, rfl, rfl, rfl, rfl, rfl, rfl⟩
    | a :: b :: t, h => simp at h; omega
  · intro h
    match s, h with
    | [], _ => exact ⟨rfl, rfl, rfl, rfl, rfl, rfl, rfl, rfl, rfl⟩
    | a :: t, h => simp at h
  · intro colq rowq rest hall hcap hlen
    simp only [exec_matrix]
    rw [Nat.mod_eq_of_lt (lt_trans hcap (by norm_num))]
    rw [if_neg (by omega)]
    rw [popNumbers_underflow rest _ hall hlen]
  · intro colq rowq rest hge hlt
    simp only [exec_matrix]
    rw [Nat.mod_eq_of_lt hlt, if_pos hge]

/-- C7 witness: `+` underflows on the empty and the one-element stack, `sin`
underflows on the empty stack, `matrix` underflows on an all-Number stack
holding one element where four are needed, and a `2^61`-element request fails
with the capacity-overflow panic. -/
theorem claim7_underflow_witness :
    exec_plus someOps [] = .error .stackUnderflow ∧
    exec_plus someOps [.Number 1] = .error .stackUnderflow ∧
    exec_sin someOps [] = .error .stackUnderflow ∧
    exec_matrix someOps [.Number 2, .Number 2, .Number 7] =
      .error .stackUnderflow ∧
    exec_matrix someOps [.Number 2305843009213693952, .Number 1] =
      .error .capacityOverflow :=
  ⟨((claim7_underflow_amended someOps []).1 (by decide)).1,
   ((claim7_underflow_amended someOps [.Number 1]).1 (by decide)).1,
   ((claim7_underflow_amended someOps []).2.1 (by decide)).1,
   (claim7_underflow_amended someOps []).2.2.1 2 2 [.Number 7]
     (by decide) (by decide) (by decide),
   (claim7_underflow_amended someOps []).2.2.2.1 2305843009213693952 1 []
     (by decide) (by decide)⟩

end PC
